import Mathlib

/-!
Verification of the SDEF scripting-dictionary reader.

The program parses an SDEF XML document (suites, commands, classes,
enumerations) into an in-memory model and answers case-insensitive
name lookups and substring searches over it.  This file embeds the
parser, the query operations, the formatters and the per-process cache
as executable Lean definitions over an explicit XML element tree, and
proves the stated properties about them.
-/

namespace SDEF

/-- One node of an already well-formed XML tree, as produced by the XML
library before the program inspects it: a tag, an attribute list and the
child elements in document order. -/
inductive XElem where
  | mk (tag : String) (attrs : List (String × String)) (children : List XElem)

def XElem.tag : XElem → String
  | .mk t _ _ => t

def XElem.attrs : XElem → List (String × String)
  | .mk _ a _ => a

def XElem.children : XElem → List XElem
  | .mk _ _ c => c

/-- Attribute lookup, as ElementTree `el.get(key)`: `none` when absent. -/
def XElem.get (el : XElem) (key : String) : Option String :=
  (el.attrs.find? (fun p => p.1 = key)).map (fun p => p.2)

/-- Attribute lookup with a default, as `el.get(key, d)`. -/
def XElem.getD (el : XElem) (key d : String) : String :=
  (el.get key).getD d

/-- Direct children with the given tag in document order, as `el.findall(tag)`. -/
def XElem.findall (el : XElem) (t : String) : List XElem :=
  el.children.filter (fun c => c.tag = t)

/-- First direct child with the given tag, as `el.find(tag)`. -/
def XElem.findFirst (el : XElem) (t : String) : Option XElem :=
  el.children.find? (fun c => c.tag = t)

/-- Python `s.lower()` (ASCII case folding). -/
def pyLower (s : String) : String := ⟨s.data.map Char.toLower⟩

/-- Is `q` an initial segment of `l`? -/
def listPre : List Char → List Char → Bool
  | [], _ => true
  | _ :: _, [] => false
  | a :: q, b :: l => a = b && listPre q l

/-- Is `q` a contiguous segment of `l`? -/
def listSub : List Char → List Char → Bool
  | q, [] => q.isEmpty
  | q, c :: l => listPre q (c :: l) || listSub q l

/-- Python substring containment `q in s`. -/
def pyIn (q s : String) : Bool := listSub q.data s.data

/-- Python `sep.join(parts)`. -/
def pyJoin (sep : String) : List String → String
  | [] => ""
  | [a] => a
  | a :: b :: rest => a ++ sep ++ pyJoin sep (b :: rest)

/-- Characters stripped by Python `str.rstrip()` (ASCII whitespace). -/
def isPySpace (c : Char) : Bool :=
  c = ' ' || c = '\t' || c = '\n' || c = '\r' || c = Char.ofNat 11 || c = Char.ofNat 12

/-- Python `s.rstrip()`. -/
def pyRstrip (s : String) : String := ⟨(s.data.reverse.dropWhile isPySpace).reverse⟩

/-- Code-point lexicographic comparison on character lists (Python string `<=`). -/
def listCharLe : List Char → List Char → Bool
  | [], _ => true
  | _ :: _, [] => false
  | a :: q, b :: l => if a < b then true else if b < a then false else listCharLe q l

/-- Python string comparison `s <= t`. -/
def strLe (s t : String) : Bool := listCharLe s.data t.data

/-- Insertion step of sorting by `strLe`. -/
def insertStr (a : String) : List String → List String
  | [] => [a]
  | b :: l => if strLe a b then a :: b :: l else b :: insertStr a l

/-- Python `sorted(...)` on strings (code-point lexicographic, ascending). -/
def sortStrs : List String → List String
  | [] => []
  | a :: l => insertStr a (sortStrs l)

/-- The ASCII apostrophe, used by the not-found messages. -/
def sq : String := String.singleton (Char.ofNat 39)

/-! ## Data model

Plain records mirroring the dicts built by `SDEFParser`. -/

structure DirectParameter where
  type : String
  description : String
  optional : Bool
deriving Repr, DecidableEq

structure Parameter where
  name : String
  code : String
  type : String
  description : String
  optional : Bool
deriving Repr, DecidableEq

structure CmdResult where
  type : String
  description : String
deriving Repr, DecidableEq

structure Command where
  name : String
  code : String
  description : String
  direct_parameter : Option DirectParameter
  parameters : List Parameter
  result : Option CmdResult
deriving Repr, DecidableEq

structure Property where
  name : String
  code : String
  type : String
  access : String
  description : String
deriving Repr, DecidableEq

structure Element where
  type : String
  access : String
deriving Repr, DecidableEq

structure Class where
  name : String
  code : String
  description : String
  inherits : String
  plural : String
  properties : List Property
  elements : List Element
  responds_to : List String
  is_extension : Bool
deriving Repr, DecidableEq

structure Enumerator where
  name : String
  code : String
  description : String
deriving Repr, DecidableEq

structure Enumeration where
  name : String
  code : String
  values : List Enumerator
deriving Repr, DecidableEq

structure Suite where
  name : String
  code : String
  description : String
  commands : List Command
  classes : List Class
  enumerations : List Enumeration
deriving Repr, DecidableEq

structure Document where
  title : String
  suites : List Suite
deriving Repr, DecidableEq

/-! ## Parser (`SDEFParser`) -/

/-- Resolution of one nested type-descriptor child inside `_resolve_type`:
`t.get("type", "any")` with the `list="yes"` prefix. -/
def resolve_child (t : XElem) : String :=
  let name := t.getD "type" "any"
  if t.get "list" = some "yes" then "list of " ++ name else name

/-- The nested-descriptor fallback of `_resolve_type`: join the children's
resolutions with " | ", or "any" when there are none. -/
def resolve_nested (el : XElem) : String :=
  let type_els := el.findall "type"
  if type_els.isEmpty then "any"
  else pyJoin " | " (type_els.map resolve_child)

/-- `SDEFParser._resolve_type`: the inline `type` attribute when present and
non-empty (Python truthiness), else the nested `<type>` children, else "any". -/
def resolve_type (el : XElem) : String :=
  match el.get "type" with
  | some t =>
    if t = "" then resolve_nested el
    else if el.get "list" = some "yes" then "list of " ++ t else t
  | none => resolve_nested el

/-- `SDEFParser._parse_command`. -/
def parse_command (el : XElem) : Command :=
  { name := el.getD "name" ""
    code := el.getD "code" ""
    description := el.getD "description" ""
    direct_parameter := (el.findFirst "direct-parameter").map (fun dp =>
      { type := resolve_type dp
        description := dp.getD "description" ""
        optional := dp.getD "optional" "no" = "yes" })
    parameters := (el.findall "parameter").map (fun p =>
      { name := p.getD "name" ""
        code := p.getD "code" ""
        type := resolve_type p
        description := p.getD "description" ""
        optional := p.getD "optional" "no" = "yes" })
    result := (el.findFirst "result").map (fun r =>
      { type := resolve_type r
        description := r.getD "description" "" }) }

/-- The `responds-to` command name: `rt.get("command", "") or rt.get("name", "")`. -/
def responds_to_name (rt : XElem) : String :=
  if rt.getD "command" "" ≠ "" then rt.getD "command" "" else rt.getD "name" ""

/-- `SDEFParser._parse_class` (also used for `class-extension` elements). -/
def parse_class (el : XElem) : Class :=
  { name := el.getD "name" ""
    code := el.getD "code" ""
    description := el.getD "description" ""
    inherits := el.getD "inherits" ""
    plural := el.getD "plural" ""
    properties := (el.findall "property").map (fun p =>
      { name := p.getD "name" ""
        code := p.getD "code" ""
        type := resolve_type p
        access := p.getD "access" "rw"
        description := p.getD "description" "" })
    elements := (el.findall "element").map (fun e =>
      { type := resolve_type e
        access := e.getD "access" "rw" })
    responds_to := (el.findall "responds-to").filterMap (fun rt =>
      if responds_to_name rt = "" then none else some (responds_to_name rt))
    is_extension := false }

/-- `SDEFParser._parse_enum`. -/
def parse_enum (el : XElem) : Enumeration :=
  { name := el.getD "name" ""
    code := el.getD "code" ""
    values := (el.findall "enumerator").map (fun v =>
      { name := v.getD "name" ""
        code := v.getD "code" ""
        description := v.getD "description" "" }) }

/-- One iteration of `SDEFParser._parse`: commands, then the `class` children,
then the `class-extension` children flagged `is_extension`, then enumerations. -/
def parse_suite (el : XElem) : Suite :=
  { name := el.getD "name" ""
    code := el.getD "code" ""
    description := el.getD "description" ""
    commands := (el.findall "command").map parse_command
    classes := (el.findall "class").map parse_class
      ++ (el.findall "class-extension").map (fun e => { parse_class e with is_extension := true })
    enumerations := (el.findall "enumeration").map parse_enum }

/-- `SDEFParser.__init__` + `_parse` on an already well-formed XML root:
the `title` attribute and the `suite` children. -/
def parse_document (root : XElem) : Document :=
  { title := root.getD "title" ""
    suites := (root.findall "suite").map parse_suite }

/-! ## Formatters -/

/-- `_fmt_command_signature`. -/
def fmt_command_signature (cmd : Command) : String :=
  let parts := [cmd.name]
    ++ (match cmd.direct_parameter with
        | some dp => ["<" ++ dp.type ++ (if dp.optional then "?" else "") ++ ">"]
        | none => [])
    ++ cmd.parameters.map (fun p => p.name ++ ":" ++ p.type ++ (if p.optional then "?" else ""))
    ++ (match cmd.result with
        | some r => ["→ " ++ r.type]
        | none => [])
  pyJoin " " parts ++ (if cmd.description ≠ "" then "  // " ++ cmd.description else "")

/-- `_fmt_command_detail`. -/
def fmt_command_detail (cmd : Command) (suite_name : String) : String :=
  let header := "COMMAND: " ++ cmd.name ++ (if suite_name ≠ "" then "  [" ++ suite_name ++ "]" else "")
  let lines := [header]
    ++ (if cmd.description ≠ "" then ["  " ++ cmd.description] else [])
    ++ (match cmd.direct_parameter with
        | some dp =>
          ["  Direct param: " ++ dp.type ++ (if dp.optional then " [optional]" else "")]
          ++ (if dp.description ≠ "" then ["    " ++ dp.description] else [])
        | none => [])
    ++ (if cmd.parameters ≠ [] then
          ["  Params:"] ++ cmd.parameters.map (fun p =>
            "    " ++ p.name ++ ": " ++ p.type ++ (if p.optional then " [optional]" else "")
            ++ (if p.description ≠ "" then " — " ++ p.description else ""))
        else [])
    ++ (match cmd.result with
        | some r =>
          ["  Returns: " ++ r.type ++ (if r.description ≠ "" then " — " ++ r.description else "")]
        | none => [])
  pyJoin "\n" lines

/-- `_fmt_class_detail`. -/
def fmt_class_detail (cls : Class) (suite_name : String) : String :=
  let header := "CLASS: " ++ cls.name ++ (if suite_name ≠ "" then "  [" ++ suite_name ++ "]" else "")
  let lines := [header]
    ++ (if cls.inherits ≠ "" then ["  Inherits: " ++ cls.inherits] else [])
    ++ (if cls.plural ≠ "" then ["  Plural: " ++ cls.plural] else [])
    ++ (if cls.is_extension then ["  (class extension)"] else [])
    ++ (if cls.description ≠ "" then ["  " ++ cls.description] else [])
    ++ (if cls.properties ≠ [] then
          ["  Properties:"] ++ cls.properties.map (fun p =>
            "    " ++ p.name ++ ": " ++ p.type
            ++ (if p.access ≠ "rw" then " [" ++ p.access ++ "]" else "")
            ++ (if p.description ≠ "" then " — " ++ p.description else ""))
        else [])
    ++ (if cls.elements ≠ [] then
          ["  Elements: " ++ pyJoin ", " (cls.elements.map Element.type)] else [])
    ++ (if cls.responds_to ≠ [] then
          ["  Responds to: " ++ pyJoin ", " cls.responds_to] else [])
  pyJoin "\n" lines

/-- `_fmt_enum_detail`. -/
def fmt_enum_detail (enum : Enumeration) (suite_name : String) : String :=
  let header := "ENUM: " ++ enum.name ++ (if suite_name ≠ "" then "  [" ++ suite_name ++ "]" else "")
  pyJoin "\n" ([header] ++ enum.values.map (fun v =>
    "  " ++ v.name ++ (if v.description ≠ "" then " — " ++ v.description else "")))

/-- `_fmt_suite_detail`. -/
def fmt_suite_detail (suite : Suite) : String :=
  let lines := ["═══ " ++ suite.name ++ " ═══"]
    ++ (if suite.description ≠ "" then [suite.description] else [])
    ++ [""]
    ++ (if suite.commands ≠ [] then
          ["COMMANDS:"] ++ suite.commands.map (fun c => "  " ++ fmt_command_signature c) ++ [""]
        else [])
    ++ (if suite.classes ≠ [] then
          ["CLASSES:"] ++ suite.classes.map (fun cls =>
            "  " ++ cls.name
            ++ (if cls.inherits ≠ "" then " : " ++ cls.inherits else "")
            ++ (if cls.is_extension then " [ext]" else "")
            ++ " (" ++ toString cls.properties.length ++ "p "
            ++ toString cls.elements.length ++ "e)"
            ++ (if cls.description ≠ "" then " — " ++ cls.description else "")) ++ [""]
        else [])
    ++ (if suite.enumerations ≠ [] then
          ["ENUMS:"] ++ suite.enumerations.map (fun enum =>
            "  " ++ enum.name ++ ": " ++ pyJoin " | " (enum.values.map Enumerator.name)) ++ [""]
        else [])
  pyRstrip (pyJoin "\n" lines)

/-! ## Query operations -/

/-- `get_suite_detail` over a loaded document: render the first suite whose
name matches case-insensitively, else a not-found message listing all suite
names in document order. -/
def get_suite_detail (doc : Document) (suite_name : String) : String :=
  match doc.suites.find? (fun s => pyLower s.name = pyLower suite_name) with
  | some s => fmt_suite_detail s
  | none =>
    "Suite " ++ sq ++ suite_name ++ sq ++ " not found. Available: "
      ++ pyJoin ", " (doc.suites.map Suite.name)

/-- The matching renderings collected by the loops of `get_command`. -/
def get_command_results (doc : Document) (command_name : String) : List String :=
  doc.suites.flatMap (fun suite =>
    suite.commands.filterMap (fun cmd =>
      if pyLower cmd.name = pyLower command_name
      then some (fmt_command_detail cmd suite.name) else none))

/-- `sorted({cmd["name"] for suite for cmd})`. -/
def all_command_names (doc : Document) : List String :=
  sortStrs (doc.suites.flatMap (fun s => s.commands.map Command.name)).dedup

/-- `get_command` over a loaded document. -/
def get_command (doc : Document) (command_name : String) : String :=
  let results := get_command_results doc command_name
  if results.isEmpty then
    "Command " ++ sq ++ command_name ++ sq ++ " not found.\nAvailable: "
      ++ pyJoin ", " (all_command_names doc)
  else pyJoin "\n\n" results

/-- The matching renderings collected by the loops of `get_class`. -/
def get_class_results (doc : Document) (class_name : String) : List String :=
  doc.suites.flatMap (fun suite =>
    suite.classes.filterMap (fun cls =>
      if pyLower cls.name = pyLower class_name
      then some (fmt_class_detail cls suite.name) else none))

/-- `sorted({cls["name"] for suite for cls})`. -/
def all_class_names (doc : Document) : List String :=
  sortStrs (doc.suites.flatMap (fun s => s.classes.map Class.name)).dedup

/-- `get_class` over a loaded document. -/
def get_class (doc : Document) (class_name : String) : String :=
  let results := get_class_results doc class_name
  if results.isEmpty then
    "Class " ++ sq ++ class_name ++ sq ++ " not found.\nAvailable: "
      ++ pyJoin ", " (all_class_names doc)
  else pyJoin "\n\n" results

/-- The matching renderings collected by the loops of `get_enumeration`. -/
def get_enumeration_results (doc : Document) (enum_name : String) : List String :=
  doc.suites.flatMap (fun suite =>
    suite.enumerations.filterMap (fun enum =>
      if pyLower enum.name = pyLower enum_name
      then some (fmt_enum_detail enum suite.name) else none))

/-- `sorted({enum["name"] for suite for enum})`. -/
def all_enumeration_names (doc : Document) : List String :=
  sortStrs (doc.suites.flatMap (fun s => s.enumerations.map Enumeration.name)).dedup

/-- `get_enumeration` over a loaded document. -/
def get_enumeration (doc : Document) (enum_name : String) : String :=
  let results := get_enumeration_results doc enum_name
  if results.isEmpty then
    "Enum " ++ sq ++ enum_name ++ sq ++ " not found.\nAvailable: "
      ++ pyJoin ", " (all_enumeration_names doc)
  else pyJoin "\n\n" results

/-! ## Search (`search_dictionary`) -/

/-- A `CMD` hit line. -/
def cmd_hit (sn : String) (cmd : Command) : String :=
  "  CMD  [" ++ sn ++ "] " ++ fmt_command_signature cmd

/-- A `CLS` hit line. -/
def cls_hit (sn : String) (cls : Class) : String :=
  "  CLS  [" ++ sn ++ "] " ++ cls.name
  ++ (if cls.inherits ≠ "" then " : " ++ cls.inherits else "")
  ++ " (" ++ toString cls.properties.length ++ "p " ++ toString cls.elements.length ++ "e)"

/-- A `PROP` hit line. -/
def prop_hit (sn : String) (cls : Class) (p : Property) : String :=
  "  PROP [" ++ sn ++ "] " ++ cls.name ++ "." ++ p.name ++ ": " ++ p.type
  ++ (if p.access ≠ "rw" then " [" ++ p.access ++ "]" else "")

/-- An `ENUM` hit line (summarizing all values). -/
def enum_hit (sn : String) (e : Enumeration) : String :=
  "  ENUM [" ++ sn ++ "] " ++ e.name ++ ": " ++ pyJoin " | " (e.values.map Enumerator.name)

/-- A `VAL` hit line (one enumerator). -/
def val_hit (sn : String) (e : Enumeration) (v : Enumerator) : String :=
  "  VAL  [" ++ sn ++ "] " ++ e.name ++ "." ++ v.name
  ++ (if v.description ≠ "" then " — " ++ v.description else "")

/-- The hits one command contributes: name or description containment. -/
def command_hits (q sn : String) (cmd : Command) : List String :=
  if pyIn q (pyLower cmd.name) || pyIn q (pyLower cmd.description)
  then [cmd_hit sn cmd] else []

/-- The hits one class contributes: a `CLS` hit on name/description match,
then a `PROP` hit for each property whose name/description matches. -/
def class_hits (q sn : String) (cls : Class) : List String :=
  (if pyIn q (pyLower cls.name) || pyIn q (pyLower cls.description)
   then [cls_hit sn cls] else [])
  ++ cls.properties.filterMap (fun p =>
      if pyIn q (pyLower p.name) || pyIn q (pyLower p.description)
      then some (prop_hit sn cls p) else none)

/-- The hits one enumeration contributes: a single `ENUM` hit when its own
name matches, else a `VAL` hit per matching enumerator. -/
def enum_hits (q sn : String) (e : Enumeration) : List String :=
  if pyIn q (pyLower e.name) then [enum_hit sn e]
  else e.values.filterMap (fun v =>
    if pyIn q (pyLower v.name) then some (val_hit sn e v) else none)

/-- The hit list accumulated by `search_dictionary`'s traversal. -/
def search_hits (doc : Document) (query : String) : List String :=
  let q := pyLower query
  doc.suites.flatMap (fun suite =>
    suite.commands.flatMap (command_hits q suite.name)
    ++ suite.classes.flatMap (class_hits q suite.name)
    ++ suite.enumerations.flatMap (enum_hits q suite.name))

/-- `search_dictionary` over a loaded document. -/
def search_dictionary (doc : Document) (app_name query : String) : String :=
  let hits := search_hits doc query
  if hits.isEmpty then
    "No results for " ++ sq ++ query ++ sq ++ " in " ++ app_name ++ sq ++ "s dictionary."
  else
    "Search " ++ sq ++ query ++ sq ++ " in " ++ app_name
      ++ " (" ++ toString hits.length ++ " hits):\n" ++ pyJoin "\n" hits

/-! ## Cache (`_get_parser`)

The locate / fetch / XML-parse steps are external collaborators
(`_find_app_path`, `_get_sdef_xml`, `ET.fromstring`); they are passed in as
functions.  The cache is the association list of already-parsed documents. -/

/-- `app_name in _sdef_cache` / `_sdef_cache[app_name]`. -/
def lookupCache (cache : List (String × Document)) (app_name : String) : Option Document :=
  (cache.find? (fun p => p.1 = app_name)).map (fun p => p.2)

/-- `_get_parser`: return the cached document, or locate the app, fetch its
SDEF text, parse it, and store the result; any failure leaves the cache
untouched.  Returns the result together with the new cache state. -/
def get_document (locate : String → Option String)
    (fetch : String → Except String String)
    (xmlParse : String → Except String XElem)
    (cache : List (String × Document)) (app_name : String) :
    Except String Document × List (String × Document) :=
  match lookupCache cache app_name with
  | some d => (Except.ok d, cache)
  | none =>
    match locate app_name with
    | none =>
      (Except.error ("App " ++ sq ++ app_name ++ sq ++ " not found. "
        ++ "Use list_scriptable_apps() to see available apps."), cache)
    | some path =>
      match fetch path with
      | Except.error e => (Except.error e, cache)
      | Except.ok xml =>
        match xmlParse xml with
        | Except.error e => (Except.error ("Malformed SDEF XML: " ++ e), cache)
        | Except.ok root =>
          let d := parse_document root
          (Except.ok d, (app_name, d) :: cache)

/-! ## Collected type strings (for the non-empty-type invariant) -/

/-- Every resolved type string appearing in one command. -/
def commandTypes (c : Command) : List String :=
  (c.direct_parameter.map DirectParameter.type).toList
  ++ c.parameters.map Parameter.type
  ++ (c.result.map CmdResult.type).toList

/-- Every resolved type string appearing in one class. -/
def classTypes (c : Class) : List String :=
  c.properties.map Property.type ++ c.elements.map Element.type

/-- Every resolved type string appearing in one suite. -/
def suiteTypes (s : Suite) : List String :=
  s.commands.flatMap commandTypes ++ s.classes.flatMap classTypes

/-- Every resolved type string appearing in a parsed document. -/
def docTypes (d : Document) : List String :=
  d.suites.flatMap suiteTypes

/-- No attribute of this element is a literally empty `type` attribute. -/
def typeAttrOK (el : XElem) : Bool :=
  el.attrs.all (fun p => !(p.1 == "type" && p.2 == ""))

/-- `typeAttrOK` holds on every node down to the given depth. -/
def treeOK : Nat → XElem → Bool
  | 0, el => typeAttrOK el
  | n + 1, el => typeAttrOK el && el.children.all (treeOK n)

/-! ## Supporting lemmas: strings and substrings -/

theorem str_length_pos {s : String} (h : s ≠ "") : 0 < s.length := by
  cases s with
  | mk data =>
    cases data with
    | nil => exact absurd rfl h
    | cons c cs => exact Nat.succ_pos cs.length

theorem str_append_ne_left {a : String} (b : String) (ha : a ≠ "") : a ++ b ≠ "" := by
  intro he
  have h0 : (a ++ b).length = 0 := by rw [he]; rfl
  rw [String.length_append] at h0
  have := str_length_pos ha
  omega

theorem pyJoin_ne_empty (sep : String) :
    ∀ parts : List String, parts ≠ [] → (∀ s ∈ parts, s ≠ "") → pyJoin sep parts ≠ "" := by
  intro parts hne hall
  match parts with
  | [] => exact absurd rfl hne
  | [a] => exact hall a (List.mem_singleton.mpr rfl)
  | a :: b :: rest =>
    show a ++ sep ++ pyJoin sep (b :: rest) ≠ ""
    intro he
    have h0 : (a ++ sep ++ pyJoin sep (b :: rest)).length = 0 := by rw [he]; rfl
    rw [String.length_append, String.length_append] at h0
    have := str_length_pos (hall a (List.mem_cons_self a _))
    omega

theorem listPre_refl : ∀ q : List Char, listPre q q = true := by
  intro q
  induction q with
  | nil => rfl
  | cons a q ih => simp [listPre, ih]

theorem listPre_append : ∀ (q l r : List Char), listPre q l = true → listPre q (l ++ r) = true := by
  intro q
  induction q with
  | nil => intro l r _; rfl
  | cons a q ih =>
    intro l r h
    cases l with
    | nil => simp [listPre] at h
    | cons b l =>
      simp only [listPre, Bool.and_eq_true] at h
      simpa [listPre, h.1] using ih l r h.2

theorem listSub_nil : ∀ l : List Char, listSub [] l = true := by
  intro l
  cases l with
  | nil => rfl
  | cons c l => simp [listSub, listPre]

theorem listSub_mono_right (q : List Char) :
    ∀ l r : List Char, listSub q l = true → listSub q (l ++ r) = true := by
  intro l
  induction l with
  | nil =>
    intro r h
    have hq : q = [] := by simpa [listSub, List.isEmpty_iff] using h
    subst hq
    exact listSub_nil r
  | cons c l ih =>
    intro r h
    simp only [listSub, Bool.or_eq_true] at h ⊢
    rcases h with h | h
    · exact Or.inl (listPre_append q (c :: l) r h)
    · exact Or.inr (ih r h)

theorem listSub_mono_left (q : List Char) :
    ∀ l r : List Char, listSub q r = true → listSub q (l ++ r) = true := by
  intro l
  induction l with
  | nil => intro r h; exact h
  | cons c l ih =>
    intro r h
    simp only [List.cons_append, listSub, Bool.or_eq_true]
    exact Or.inr (ih r h)

theorem listSub_self : ∀ q : List Char, listSub q q = true := by
  intro q
  cases q with
  | nil => rfl
  | cons c l => simp [listSub, listPre_refl]

theorem sub_pyJoin_of_mem (sep : String) :
    ∀ (parts : List String) (s : String), s ∈ parts →
      listSub s.data (pyJoin sep parts).data = true := by
  intro parts
  induction parts with
  | nil => intro s h; cases h
  | cons a parts ih =>
    intro s hs
    cases parts with
    | nil =>
      have : s = a := List.mem_singleton.mp hs
      subst this
      exact listSub_self s.data
    | cons b rest =>
      show listSub s.data (a ++ sep ++ pyJoin sep (b :: rest)).data = true
      rw [String.data_append, String.data_append, List.append_assoc]
      rcases List.mem_cons.mp hs with h | h
      · subst h
        exact listSub_mono_right s.data s.data _ (listSub_self s.data)
      · rw [← List.append_assoc]
        exact listSub_mono_left s.data _ _ (ih s h)

/-! ## Supporting lemmas: sorting -/

theorem listCharLe_total : ∀ a b : List Char, listCharLe a b = true ∨ listCharLe b a = true := by
  intro a
  induction a with
  | nil => intro b; exact Or.inl rfl
  | cons x xs ih =>
    intro b
    cases b with
    | nil => exact Or.inr rfl
    | cons y ys =>
      rcases lt_trichotomy x y with h | h | h
      · left; simp [listCharLe, h]
      · subst h
        rcases ih ys with h2 | h2
        · left; simp [listCharLe, lt_irrefl, h2]
        · right; simp [listCharLe, lt_irrefl, h2]
      · right; simp [listCharLe, h]

theorem listCharLe_trans :
    ∀ a b c : List Char, listCharLe a b = true → listCharLe b c = true →
      listCharLe a c = true := by
  intro a
  induction a with
  | nil => intro b c _ _; rfl
  | cons x xs ih =>
    intro b c hab hbc
    cases b with
    | nil => simp [listCharLe] at hab
    | cons y ys =>
      cases c with
      | nil => simp [listCharLe] at hbc
      | cons z zs =>
        simp only [listCharLe] at hab hbc ⊢
        by_cases hxy : x < y
        · by_cases hyz : y < z
          · simp [lt_trans hxy hyz]
          · by_cases hzy : z < y
            · simp [hyz, hzy] at hbc
            · have hyzeq : y = z := le_antisymm (not_lt.mp hzy) (not_lt.mp hyz)
              subst hyzeq
              simp [hxy]
        · by_cases hyx : y < x
          · simp [hxy, hyx] at hab
          · have hxyeq : x = y := le_antisymm (not_lt.mp hyx) (not_lt.mp hxy)
            subst hxyeq
            by_cases hxz : x < z
            · simp [hxz]
            · by_cases hzx : z < x
              · simp [hxz, hzx] at hbc
              · simp only [hxy, hyx, if_neg, if_neg hxz, if_neg hzx] at hab hbc ⊢
                exact ih ys zs hab hbc

theorem strLe_total (a b : String) : strLe a b = true ∨ strLe b a = true :=
  listCharLe_total a.data b.data

theorem strLe_trans {a b c : String} (h1 : strLe a b = true) (h2 : strLe b c = true) :
    strLe a c = true :=
  listCharLe_trans a.data b.data c.data h1 h2

theorem insertStr_perm (a : String) : ∀ l : List String, List.Perm (insertStr a l) (a :: l) := by
  intro l
  induction l with
  | nil => exact List.Perm.refl [a]
  | cons b l ih =>
    show List.Perm (if strLe a b then a :: b :: l else b :: insertStr a l) (a :: b :: l)
    by_cases h : strLe a b = true
    · rw [if_pos h]
    · rw [if_neg h]
      exact (ih.cons b).trans (List.Perm.swap a b l)

theorem sortStrs_perm : ∀ l : List String, List.Perm (sortStrs l) l := by
  intro l
  induction l with
  | nil => exact List.Perm.refl []
  | cons a l ih => exact (insertStr_perm a (sortStrs l)).trans (ih.cons a)

theorem sorted_insertStr (a : String) :
    ∀ l : List String, l.Sorted (fun x y => strLe x y = true) →
      (insertStr a l).Sorted (fun x y => strLe x y = true) := by
  intro l
  induction l with
  | nil => intro _; simp [insertStr]
  | cons b l ih =>
    intro h
    rw [List.sorted_cons] at h
    obtain ⟨hb, hl⟩ := h
    show ((if strLe a b then a :: b :: l else b :: insertStr a l) : List String).Sorted _
    by_cases hab : strLe a b = true
    · rw [if_pos hab]
      rw [List.sorted_cons]
      refine ⟨?_, by rw [List.sorted_cons]; exact ⟨hb, hl⟩⟩
      intro x hx
      rcases List.mem_cons.mp hx with h | h
      · subst h; exact hab
      · exact strLe_trans hab (hb x h)
    · rw [if_neg hab]
      rw [List.sorted_cons]
      refine ⟨?_, ih hl⟩
      intro x hx
      rcases List.mem_cons.mp ((insertStr_perm a l).mem_iff.mp hx) with h | h
      · rw [h]
        rcases strLe_total a b with h2 | h2
        · exact absurd h2 hab
        · exact h2
      · exact hb x h

theorem sorted_sortStrs : ∀ l : List String, (sortStrs l).Sorted (fun x y => strLe x y = true) := by
  intro l
  induction l with
  | nil => simp [sortStrs]
  | cons a l ih => exact sorted_insertStr a (sortStrs l) ih

/-! ## Supporting lemmas: guarded filterMap, treeOK, type resolution -/

theorem filterMap_guard {α β : Type} (p : α → Bool) (f : α → β) :
    ∀ l : List α,
      l.filterMap (fun a => if p a then some (f a) else none) = (l.filter p).map f := by
  intro l
  induction l with
  | nil => rfl
  | cons a l ih =>
    by_cases h : p a = true <;>
      simp [List.filterMap_cons, List.filter_cons, h, ih]

theorem treeOK_attr {n : Nat} {el : XElem} (h : treeOK n el = true) : typeAttrOK el = true := by
  cases n with
  | zero => exact h
  | succ n => exact (Bool.and_eq_true_iff.mp h).1

theorem treeOK_child {n : Nat} {el c : XElem} (h : treeOK (n + 1) el = true)
    (hc : c ∈ el.children) : treeOK n c = true := by
  have h2 := (Bool.and_eq_true_iff.mp h).2
  rw [List.all_eq_true] at h2
  exact h2 c hc

theorem typeAttrOK_get {el : XElem} {v : String} (h : typeAttrOK el = true)
    (hv : el.get "type" = some v) : v ≠ "" := by
  unfold XElem.get at hv
  rw [Option.map_eq_some'] at hv
  obtain ⟨p, hfind, hp2⟩ := hv
  have hkey : p.1 = "type" :=
    of_decide_eq_true
      (List.find?_some (p := fun q : String × String => decide (q.1 = "type")) hfind)
  have hmem : p ∈ el.attrs := List.mem_of_find?_eq_some hfind
  unfold typeAttrOK at h
  rw [List.all_eq_true] at h
  have := h p hmem
  simp only [Bool.not_eq_true', Bool.and_eq_false_iff, beq_eq_false_iff_ne] at this
  rcases this with h1 | h1
  · exact absurd hkey h1
  · rw [← hp2]; exact h1

theorem resolve_child_ok {c : XElem} (h : typeAttrOK c = true) : resolve_child c ≠ "" := by
  unfold resolve_child XElem.getD
  cases hget : c.get "type" with
  | none =>
    simp only [hget, Option.getD_none]
    by_cases hl : c.get "list" = some "yes" <;> simp [hl]
  | some v =>
    have hv := typeAttrOK_get h hget
    simp only [hget, Option.getD_some]
    by_cases hl : c.get "list" = some "yes"
    · simp only [hl, if_true]
      exact str_append_ne_left v (by decide)
    · simp only [hl, if_false]
      exact hv

theorem resolve_nested_ok {el : XElem} (h : treeOK 1 el = true) : resolve_nested el ≠ "" := by
  unfold resolve_nested
  by_cases he : (el.findall "type").isEmpty = true
  · simp only [he, if_true]; decide
  · simp only [he, if_false]
    refine pyJoin_ne_empty " | " _ ?_ ?_
    · simp only [ne_eq, List.map_eq_nil_iff]
      intro hnil
      rw [hnil] at he
      exact he rfl
    · intro s hs
      rw [List.mem_map] at hs
      obtain ⟨c, hc, hcs⟩ := hs
      have hmem : c ∈ el.children := (List.mem_filter.mp hc).1
      have hok : typeAttrOK c = true := treeOK_attr (treeOK_child h hmem)
      rw [← hcs]
      exact resolve_child_ok hok

theorem resolve_type_ok {el : XElem} (h : treeOK 1 el = true) : resolve_type el ≠ "" := by
  unfold resolve_type
  cases hget : el.get "type" with
  | none => exact resolve_nested_ok h
  | some t =>
    by_cases ht : t = ""
    · simp only [ht, if_true]
      exact resolve_nested_ok h
    · simp only [ht, if_false]
      by_cases hl : el.get "list" = some "yes"
      · simp only [hl, if_true]
        exact str_append_ne_left t (by decide)
      · simp only [hl, if_false]
        exact ht

theorem mem_children_of_findFirst {el c : XElem} {t : String}
    (h : el.findFirst t = some c) : c ∈ el.children :=
  List.mem_of_find?_eq_some h

theorem mem_children_of_findall {el c : XElem} {t : String}
    (h : c ∈ el.findall t) : c ∈ el.children :=
  (List.mem_filter.mp h).1

theorem commandTypes_ok {el : XElem} (h : treeOK 2 el = true) :
    ∀ t ∈ commandTypes (parse_command el), t ≠ "" := by
  intro t ht
  cases hdp : el.findFirst "direct-parameter" with
  | none =>
    cases hres : el.findFirst "result" with
    | none =>
      simp only [commandTypes, parse_command, hdp, hres, Option.map_none', Option.toList_none,
        List.nil_append, List.append_nil, List.map_map, List.mem_map, Function.comp] at ht
      obtain ⟨p, hp, hpt⟩ := ht
      rw [← hpt]
      exact resolve_type_ok (treeOK_child h (mem_children_of_findall hp))
    | some r =>
      simp only [commandTypes, parse_command, hdp, hres, Option.map_none', Option.toList_none,
        Option.map_some', Option.toList_some, List.nil_append, List.mem_append, List.map_map,
        List.mem_map, List.mem_singleton, Function.comp] at ht
      rcases ht with ⟨p, hp, hpt⟩ | hrt
      · rw [← hpt]
        exact resolve_type_ok (treeOK_child h (mem_children_of_findall hp))
      · rw [hrt]
        exact resolve_type_ok (treeOK_child h (mem_children_of_findFirst hres))
  | some dp =>
    cases hres : el.findFirst "result" with
    | none =>
      simp only [commandTypes, parse_command, hdp, hres, Option.map_none', Option.toList_none,
        Option.map_some', Option.toList_some, List.append_nil, List.mem_append, List.map_map,
        List.mem_map, List.mem_singleton, Function.comp] at ht
      rcases ht with hdt | ⟨p, hp, hpt⟩
      · rw [hdt]
        exact resolve_type_ok (treeOK_child h (mem_children_of_findFirst hdp))
      · rw [← hpt]
        exact resolve_type_ok (treeOK_child h (mem_children_of_findall hp))
    | some r =>
      simp only [commandTypes, parse_command, hdp, hres, Option.map_some', Option.toList_some,
        List.mem_append, List.map_map, List.mem_map, List.mem_singleton, Function.comp] at ht
      rcases ht with (hdt | ⟨p, hp, hpt⟩) | hrt
      · rw [hdt]
        exact resolve_type_ok (treeOK_child h (mem_children_of_findFirst hdp))
      · rw [← hpt]
        exact resolve_type_ok (treeOK_child h (mem_children_of_findall hp))
      · rw [hrt]
        exact resolve_type_ok (treeOK_child h (mem_children_of_findFirst hres))

theorem classTypes_ok {el : XElem} (h : treeOK 2 el = true) :
    ∀ t ∈ classTypes (parse_class el), t ≠ "" := by
  intro t ht
  simp only [classTypes, parse_class, List.mem_append, List.map_map, List.mem_map,
    Function.comp] at ht
  rcases ht with ⟨p, hp, hpt⟩ | ⟨e, he, het⟩
  · rw [← hpt]
    exact resolve_type_ok (treeOK_child h (mem_children_of_findall hp))
  · rw [← het]
    exact resolve_type_ok (treeOK_child h (mem_children_of_findall he))

theorem classTypes_extension (el : XElem) :
    classTypes { parse_class el with is_extension := true } = classTypes (parse_class el) := rfl

theorem suiteTypes_ok {el : XElem} (h : treeOK 3 el = true) :
    ∀ t ∈ suiteTypes (parse_suite el), t ≠ "" := by
  intro t ht
  simp only [suiteTypes, parse_suite, List.mem_append, List.mem_flatMap, List.mem_map] at ht
  
  rcases ht with ⟨c, ⟨ce, hce, hc⟩, htc⟩ | ⟨c, hcc, htc⟩
  · rw [← hc] at htc
    exact commandTypes_ok (treeOK_child h (mem_children_of_findall hce)) t htc
  · rcases hcc with ⟨ce, hce, hc⟩ | ⟨ce, hce, hc⟩
    · rw [← hc] at htc
      exact classTypes_ok (treeOK_child h (mem_children_of_findall hce)) t htc
    · rw [← hc, classTypes_extension] at htc
      exact classTypes_ok (treeOK_child h (mem_children_of_findall hce)) t htc

/-! ## Claim C9 -/

/-- Claim C9 (amended): in every parsed document whose source tree carries no
explicitly empty `type` attribute, every resolved type string (of a parameter,
direct parameter, result, property, or element) is non-empty; absence of
explicit type information resolves to the literal sentinel "any". -/
theorem C9_nonempty_types (root : XElem) (h : treeOK 4 root = true) :
    ∀ t ∈ docTypes (parse_document root), t ≠ "" := by
  intro t ht
  simp only [docTypes, parse_document, List.mem_flatMap, List.mem_map] at ht
  obtain ⟨s, ⟨se, hse, hs⟩, hts⟩ := ht
  rw [← hs] at hts
  exact suiteTypes_ok (treeOK_child h (mem_children_of_findall hse)) t hts

/-- A small concrete dictionary: one suite, one command with a typed
parameter, an untyped result (which resolves to "any"), and one class with a
union-typed property. -/
def c9root : XElem :=
  XElem.mk "dictionary" [("title", "T")]
    [XElem.mk "suite" [("name", "Core")]
      [XElem.mk "command" [("name", "open")]
        [XElem.mk "parameter" [("name", "target"), ("type", "file")] [],
         XElem.mk "result" [] []],
       XElem.mk "class" [("name", "window")]
        [XElem.mk "property" [("name", "bounds")]
          [XElem.mk "type" [("type", "rectangle")] [],
           XElem.mk "type" [("type", "text"), ("list", "yes")] []]]]]

theorem C9_nonempty_types_witness :
    treeOK 4 c9root = true ∧ ("any" ∈ docTypes (parse_document c9root)
      ∧ "rectangle | list of text" ∈ docTypes (parse_document c9root))
      ∧ "any" ≠ "" ∧ "rectangle | list of text" ≠ "" :=
  ⟨by decide, ⟨by decide, by decide⟩,
    C9_nonempty_types c9root (by decide) "any" (by decide),
    C9_nonempty_types c9root (by decide) "rectangle | list of text" (by decide)⟩

/-- A document whose only parameter has a single nested type-descriptor child
carrying a literally empty `type` attribute. -/
def c9badRoot : XElem :=
  XElem.mk "dictionary" [("title", "T")]
    [XElem.mk "suite" [("name", "Core")]
      [XElem.mk "command" [("name", "open")]
        [XElem.mk "parameter" [("name", "target")]
          [XElem.mk "type" [("type", "")] []]]]]

/-- Claim C9 as stated is false: a nested type-descriptor whose `type`
attribute is present but empty resolves to the empty string, so a parsed
document can contain an empty resolved type. -/
theorem C9_counterexample : "" ∈ docTypes (parse_document c9badRoot) := by decide

/-! ## Claim C1 -/

theorem resolve_nested_eq_join {el : XElem} (h : el.findall "type" ≠ []) :
    resolve_nested el = pyJoin " | " ((el.findall "type").map resolve_child) := by
  show (if (el.findall "type").isEmpty then "any"
    else pyJoin " | " ((el.findall "type").map resolve_child)) = _
  rw [if_neg]
  intro hh
  exact h (List.isEmpty_iff.mp hh)

theorem resolve_nested_eq_any {el : XElem} (h : el.findall "type" = []) :
    resolve_nested el = "any" := by
  show (if (el.findall "type").isEmpty then "any"
    else pyJoin " | " ((el.findall "type").map resolve_child)) = _
  rw [if_pos (List.isEmpty_iff.mpr h)]

/-- Claim C1 (amended): for a typed element, a *non-empty* inline `type`
attribute determines the resolved type (with `list="yes"` producing
"list of <type>"), taking precedence over nested type-descriptor children;
when no non-empty inline attribute is present but nested descriptor children
exist, the resolved type is each child's own inline-rule resolution joined
with " | "; when neither is present, the resolved type is "any". -/
theorem C1_type_resolution (el : XElem) :
    (∀ t, el.get "type" = some t → t ≠ "" →
      resolve_type el = (if el.get "list" = some "yes" then "list of " ++ t else t)) ∧
    ((∀ t, el.get "type" = some t → t = "") → el.findall "type" ≠ [] →
      resolve_type el = pyJoin " | " ((el.findall "type").map resolve_child)) ∧
    ((∀ t, el.get "type" = some t → t = "") → el.findall "type" = [] →
      resolve_type el = "any") := by
  have hnested : (∀ t, el.get "type" = some t → t = "") →
      resolve_type el = resolve_nested el := by
    intro hempty
    unfold resolve_type
    cases hget : el.get "type" with
    | none => rfl
    | some t =>
      have ht := hempty t hget
      subst ht
      show (if ("" : String) = "" then resolve_nested el
        else if el.get "list" = some "yes" then "list of " ++ "" else "") = _
      rw [if_pos rfl]
  refine ⟨?_, ?_, ?_⟩
  · intro t ht hne
    unfold resolve_type
    rw [ht]
    show (if t = "" then resolve_nested el
      else if el.get "list" = some "yes" then "list of " ++ t else t) = _
    rw [if_neg hne]
  · intro hempty hne
    rw [hnested hempty]
    exact resolve_nested_eq_join hne
  · intro hempty hnil
    rw [hnested hempty]
    exact resolve_nested_eq_any hnil

/-- An element carrying both an (empty) inline `type` attribute and a nested
type-descriptor child. -/
def c1el : XElem :=
  XElem.mk "parameter" [("type", "")] [XElem.mk "type" [("type", "text")] []]

/-- Claim C1 as stated is false: here the inline `type` attribute is present,
yet the resolved type comes from the nested descriptor ("text") rather than
being determined by the inline attribute (which would give ""): Python
truthiness treats a present-but-empty attribute as absent. -/
theorem C1_counterexample :
    (c1el.get "type").isSome = true ∧
    resolve_type c1el = "text" ∧
    (if c1el.get "list" = some "yes"
      then "list of " ++ c1el.getD "type" "any" else c1el.getD "type" "any") = "" ∧
    ("text" : String) ≠ "" := by decide

def c1inline : XElem := XElem.mk "parameter" [("type", "text"), ("list", "yes")] []

def c1nested : XElem :=
  XElem.mk "result" []
    [XElem.mk "type" [("type", "integer")] [],
     XElem.mk "type" [("type", "file"), ("list", "yes")] []]

def c1bare : XElem := XElem.mk "direct-parameter" [] []

theorem C1_type_resolution_witness :
    resolve_type c1inline = "list of text" ∧
    resolve_type c1nested = "integer | list of file" ∧
    resolve_type c1bare = "any" := by
  refine ⟨?_, ?_, ?_⟩
  · have h := (C1_type_resolution c1inline).1 "text" rfl (by decide)
    rw [h]; decide
  · have h := (C1_type_resolution c1nested).2.1
      (fun t ht => by simp [c1nested, XElem.get, XElem.attrs] at ht)
      (List.cons_ne_nil _ _)
    rw [h]; decide
  · have h := (C1_type_resolution c1bare).2.2
      (fun t ht => by simp [c1bare, XElem.get, XElem.attrs] at ht) rfl
    rw [h]

/-! ## Claim C2 -/

theorem classes_flags_false :
    ∀ L : List XElem, (L.map parse_class).map Class.is_extension
      = List.replicate L.length false := by
  intro L
  induction L with
  | nil => rfl
  | cons a L ih => simp [List.replicate_succ, ih, parse_class]

theorem classes_flags_true :
    ∀ L : List XElem,
      (L.map (fun e => { parse_class e with is_extension := true })).map Class.is_extension
        = List.replicate L.length true := by
  intro L
  induction L with
  | nil => rfl
  | cons a L ih => simp [List.replicate_succ, ih]

/-- A suite in which a class-extension declaration precedes a plain class
declaration. -/
def c2suite : XElem :=
  XElem.mk "suite" [("name", "S")]
    [XElem.mk "class-extension" [("name", "application")] [],
     XElem.mk "class" [("name", "document")] []]

/-- Claim C2 as stated is false: the parser collects all `class` children
before all `class-extension` children, so a class-extension that precedes a
plain class in the document ends up *after* it in the parsed `classes`
sequence, breaking document order. -/
theorem C2_counterexample :
    (parse_suite c2suite).classes.map Class.name = ["document", "application"] ∧
    (c2suite.children.filter (fun c => c.tag == "class" || c.tag == "class-extension")).map
      (fun c => c.getD "name" "") = ["application", "document"] ∧
    (["document", "application"] : List String) ≠ ["application", "document"] := by decide

/-- Claim C2 (amended): parsing preserves suite, command, class and
enumeration counts, and preserves document order for suites, commands and
enumerations; the `classes` sequence lists the plain `class` declarations in
document order followed by the `class-extension` declarations in document
order, the latter flagged `is_extension = true`. -/
theorem C2_order_preservation (root el : XElem) :
    (parse_document root).suites.map Suite.name
      = (root.findall "suite").map (fun s => s.getD "name" "") ∧
    (parse_suite el).commands.map Command.name
      = (el.findall "command").map (fun c => c.getD "name" "") ∧
    (parse_suite el).enumerations.map Enumeration.name
      = (el.findall "enumeration").map (fun c => c.getD "name" "") ∧
    (parse_suite el).classes.map Class.name
      = (el.findall "class").map (fun c => c.getD "name" "")
        ++ (el.findall "class-extension").map (fun c => c.getD "name" "") ∧
    (parse_suite el).classes.length
      = (el.findall "class").length + (el.findall "class-extension").length ∧
    (parse_suite el).classes.map Class.is_extension
      = List.replicate (el.findall "class").length false
        ++ List.replicate (el.findall "class-extension").length true := by
  refine ⟨?_, ?_, ?_, ?_, ?_, ?_⟩
  · show ((root.findall "suite").map parse_suite).map Suite.name = _
    rw [List.map_map]; rfl
  · show ((el.findall "command").map parse_command).map Command.name = _
    rw [List.map_map]; rfl
  · show ((el.findall "enumeration").map parse_enum).map Enumeration.name = _
    rw [List.map_map]; rfl
  · show ((el.findall "class").map parse_class
      ++ (el.findall "class-extension").map (fun e => { parse_class e with is_extension := true })).map
        Class.name = _
    rw [List.map_append, List.map_map, List.map_map]; rfl
  · show ((el.findall "class").map parse_class
      ++ (el.findall "class-extension").map (fun e => { parse_class e with is_extension := true })).length
        = _
    rw [List.length_append, List.length_map, List.length_map]
  · show ((el.findall "class").map parse_class
      ++ (el.findall "class-extension").map (fun e => { parse_class e with is_extension := true })).map
        Class.is_extension = _
    rw [List.map_append, classes_flags_false, classes_flags_true]

/-! ## Claim C3 -/

theorem lookupCache_cons_self (a : String) (d : Document) (c : List (String × Document)) :
    lookupCache ((a, d) :: c) a = some d := by
  unfold lookupCache
  rw [List.find?_cons_of_pos c (by simp)]
  rfl

/-- Claim C3: after a successful load (or a cache hit) the document is stored
under the identifier and a subsequent request with the same identifier
returns it with the cache unchanged, regardless of the provider (so the
provider is not re-invoked); a failed load (app not found, extraction error,
malformed document) leaves the cache unchanged, and a subsequent request with
a succeeding provider performs the load afresh. -/
theorem C3_cache_contract
    (L L2 : String → Option String)
    (F F2 : String → Except String String)
    (P P2 : String → Except String XElem)
    (cache : List (String × Document)) (app_name : String) :
    (∀ d, (get_document L F P cache app_name).1 = Except.ok d →
      lookupCache (get_document L F P cache app_name).2 app_name = some d ∧
      get_document L2 F2 P2 (get_document L F P cache app_name).2 app_name
        = (Except.ok d, (get_document L F P cache app_name).2)) ∧
    (∀ e, (get_document L F P cache app_name).1 = Except.error e →
      (get_document L F P cache app_name).2 = cache) ∧
    (∀ e path xml root, (get_document L F P cache app_name).1 = Except.error e →
      L2 app_name = some path → F2 path = Except.ok xml → P2 xml = Except.ok root →
      get_document L2 F2 P2 (get_document L F P cache app_name).2 app_name
        = (Except.ok (parse_document root),
            (app_name, parse_document root) :: cache)) := by
  cases hc : lookupCache cache app_name with
  | some d0 =>
    have hgd : get_document L F P cache app_name = (Except.ok d0, cache) := by
      unfold get_document
      simp only [hc]
    refine ⟨?_, ?_, ?_⟩
    · intro d hd
      rw [hgd] at hd
      obtain rfl : d0 = d := Except.ok.inj hd
      rw [hgd]
      refine ⟨hc, ?_⟩
      unfold get_document
      simp only [hc]
    · intro e he
      rw [hgd] at he
      simp at he
    · intro e path xml root he
      rw [hgd] at he
      simp at he
  | none =>
    cases hl : L app_name with
    | none =>
      have hgd : get_document L F P cache app_name
          = (Except.error ("App " ++ sq ++ app_name ++ sq ++ " not found. "
              ++ "Use list_scriptable_apps() to see available apps."), cache) := by
        unfold get_document
        simp only [hc, hl]
      refine ⟨?_, ?_, ?_⟩
      · intro d hd
        rw [hgd] at hd
        simp at hd
      · intro e _
        rw [hgd]
      · intro e path xml root _ hl2 hf2 hp2
        rw [hgd]
        unfold get_document
        simp only [hc, hl2, hf2, hp2]
    | some path0 =>
      cases hf : F path0 with
      | error e0 =>
        have hgd : get_document L F P cache app_name = (Except.error e0, cache) := by
          unfold get_document
          simp only [hc, hl, hf]
        refine ⟨?_, ?_, ?_⟩
        · intro d hd
          rw [hgd] at hd
          simp at hd
        · intro e _
          rw [hgd]
        · intro e path xml root _ hl2 hf2 hp2
          rw [hgd]
          unfold get_document
          simp only [hc, hl2, hf2, hp2]
      | ok xml0 =>
        cases hp : P xml0 with
        | error e0 =>
          have hgd : get_document L F P cache app_name
              = (Except.error ("Malformed SDEF XML: " ++ e0), cache) := by
            unfold get_document
            simp only [hc, hl, hf, hp]
          refine ⟨?_, ?_, ?_⟩
          · intro d hd
            rw [hgd] at hd
            simp at hd
          · intro e _
            rw [hgd]
          · intro e path xml root _ hl2 hf2 hp2
            rw [hgd]
            unfold get_document
            simp only [hc, hl2, hf2, hp2]
        | ok root0 =>
          have hgd : get_document L F P cache app_name
              = (Except.ok (parse_document root0),
                  (app_name, parse_document root0) :: cache) := by
            unfold get_document
            simp only [hc, hl, hf, hp]
          refine ⟨?_, ?_, ?_⟩
          · intro d hd
            rw [hgd] at hd
            obtain rfl : parse_document root0 = d := Except.ok.inj hd
            rw [hgd]
            refine ⟨lookupCache_cons_self _ _ _, ?_⟩
            unfold get_document
            simp only [lookupCache_cons_self]
          · intro e he
            rw [hgd] at he
            simp at he
          · intro e path xml root he
            rw [hgd] at he
            simp at he

theorem C3_cache_contract_witness :
    (get_document (fun _ => none) (fun _ => Except.error "boom") (fun _ => Except.error "boom")
        [("Safari", parse_document c9root)] "Safari"
      = (Except.ok (parse_document c9root), [("Safari", parse_document c9root)])) ∧
    ((get_document (fun _ => none) (fun _ => Except.error "boom") (fun _ => Except.error "boom")
        [] "Mail").2 = []) ∧
    (get_document (fun _ => some "/Applications/Mail.app") (fun _ => Except.ok "sdef-xml")
        (fun _ => Except.ok c9root) [] "Mail"
      = (Except.ok (parse_document c9root), [("Mail", parse_document c9root)])) :=
  ⟨((C3_cache_contract (fun _ => none) (fun _ => none)
      (fun _ => Except.error "boom") (fun _ => Except.error "boom")
      (fun _ => Except.error "boom") (fun _ => Except.error "boom")
      [("Safari", parse_document c9root)] "Safari").1 (parse_document c9root) rfl).2,
   (C3_cache_contract (fun _ => none) (fun _ => none)
      (fun _ => Except.error "boom") (fun _ => Except.error "boom")
      (fun _ => Except.error "boom") (fun _ => Except.error "boom") [] "Mail").2.1 _ rfl,
   (C3_cache_contract (fun _ => none) (fun _ => some "/Applications/Mail.app")
      (fun _ => Except.error "boom") (fun _ => Except.ok "sdef-xml")
      (fun _ => Except.error "boom") (fun _ => Except.ok c9root) [] "Mail").2.2
      _ "/Applications/Mail.app" "sdef-xml" c9root rfl rfl rfl rfl⟩

/-! ## Claim C10 -/

theorem find?_first_suite_match (q : String) :
    ∀ (pre : List Suite) (s : Suite) (rest : List Suite),
      (∀ p ∈ pre, pyLower p.name ≠ pyLower q) → pyLower s.name = pyLower q →
      (pre ++ s :: rest).find? (fun t => pyLower t.name = pyLower q) = some s := by
  intro pre
  induction pre with
  | nil =>
    intro s rest _ hm
    rw [List.nil_append]
    exact List.find?_cons_of_pos rest (decide_eq_true hm)
  | cons a pre ih =>
    intro s rest hpre hm
    rw [List.cons_append, List.find?_cons_of_neg]
    · exact ih s rest (fun p hp => hpre p (List.mem_cons_of_mem a hp)) hm
    · simp [hpre a (List.mem_cons_self a pre)]

/-- Claim C10: when several suites match the queried name case-insensitively,
`get_suite_detail` renders exactly the first matching suite in document
order; later matching suites are never rendered. -/
theorem C10_suite_detail_first_match (doc : Document) (q : String)
    (pre : List Suite) (s : Suite) (rest : List Suite)
    (hsplit : doc.suites = pre ++ s :: rest)
    (hpre : ∀ p ∈ pre, pyLower p.name ≠ pyLower q)
    (hmatch : pyLower s.name = pyLower q) :
    get_suite_detail doc q = fmt_suite_detail s := by
  unfold get_suite_detail
  rw [hsplit, find?_first_suite_match q pre s rest hpre hmatch]

def c10suiteA : Suite :=
  { name := "Standard Suite", code := "core", description := "first",
    commands := [], classes := [], enumerations := [] }

def c10suiteB : Suite :=
  { name := "standard suite", code := "dupx", description := "second",
    commands := [], classes := [], enumerations := [] }

def c10doc : Document := { title := "T", suites := [c10suiteA, c10suiteB] }

theorem C10_suite_detail_first_match_witness :
    pyLower c10suiteA.name = pyLower c10suiteB.name ∧
    get_suite_detail c10doc "STANDARD SUITE" = fmt_suite_detail c10suiteA ∧
    fmt_suite_detail c10suiteA ≠ fmt_suite_detail c10suiteB :=
  ⟨by decide,
   C10_suite_detail_first_match c10doc "STANDARD SUITE" [] c10suiteA [c10suiteB] rfl
     (fun p hp => absurd hp (List.not_mem_nil p)) (by decide),
   by decide⟩

/-! ## Claim C6 -/

def c6doc : Document := { title := "T", suites := [] }

/-- Claim C6 as stated is false: on a not-found query the response embeds the
query string verbatim, so two queries differing only in letter case produce
different not-found messages. -/
theorem C6_counterexample :
    pyLower "A" = pyLower "a" ∧ get_command c6doc "A" ≠ get_command c6doc "a" := by decide

/-- Claim C6 (amended): two command-name queries that differ only in letter
case select exactly the same command renderings, and whenever at least one
command matches, the responses are identical; only the not-found message
differs, because it echoes the query as supplied. -/
theorem C6_case_insensitive (doc : Document) (q1 q2 : String)
    (h : pyLower q1 = pyLower q2) :
    get_command_results doc q1 = get_command_results doc q2 ∧
    (get_command_results doc q1 ≠ [] → get_command doc q1 = get_command doc q2) := by
  have hres : get_command_results doc q1 = get_command_results doc q2 := by
    unfold get_command_results
    simp only [h]
  refine ⟨hres, ?_⟩
  intro hne
  have hcond : ¬((get_command_results doc q2).isEmpty = true) := by
    rw [← hres]
    intro hh
    exact hne (List.isEmpty_iff.mp hh)
  simp only [get_command]
  rw [hres, if_neg hcond, if_neg hcond]

def c6cmd : Command :=
  { name := "make", code := "crel", description := "Create a new object.",
    direct_parameter := none, parameters := [], result := none }

def c6suite : Suite :=
  { name := "Standard Suite", code := "core", description := "",
    commands := [c6cmd], classes := [], enumerations := [] }

def c6docW : Document := { title := "T", suites := [c6suite] }

theorem C6_case_insensitive_witness :
    pyLower "MAKE" = pyLower "Make" ∧
    get_command_results c6docW "MAKE" ≠ [] ∧
    get_command c6docW "MAKE" = get_command c6docW "Make" :=
  ⟨by decide, by decide,
   (C6_case_insensitive c6docW "MAKE" "Make" (by decide)).2 (by decide)⟩

/-! ## Claim C7 -/

/-- Claim C7: when an enumeration-name query matches no enumeration in any
suite, the response is the not-found message whose alternatives list is
sorted, duplicate-free, and contains exactly the enumeration names of the
document. -/
theorem C7_enum_not_found (doc : Document) (q : String)
    (h : ∀ s ∈ doc.suites, ∀ e ∈ s.enumerations, pyLower e.name ≠ pyLower q) :
    get_enumeration doc q
      = "Enum " ++ sq ++ q ++ sq ++ " not found.\nAvailable: "
          ++ pyJoin ", " (all_enumeration_names doc) ∧
    (all_enumeration_names doc).Sorted (fun a b => strLe a b = true) ∧
    (all_enumeration_names doc).Nodup ∧
    (∀ n, n ∈ all_enumeration_names doc
      ↔ ∃ s ∈ doc.suites, ∃ e ∈ s.enumerations, e.name = n) := by
  have hres : get_enumeration_results doc q = [] := by
    unfold get_enumeration_results
    rw [List.flatMap_eq_nil_iff]
    intro s hs
    rw [List.filterMap_eq_nil_iff]
    intro e he
    rw [if_neg (h s hs e he)]
  refine ⟨?_, sorted_sortStrs _, ?_, ?_⟩
  · simp only [get_enumeration]
    rw [hres]
    rfl
  · exact (sortStrs_perm _).nodup_iff.mpr (List.nodup_dedup _)
  · intro n
    unfold all_enumeration_names
    rw [(sortStrs_perm _).mem_iff, List.mem_dedup, List.mem_flatMap]
    simp [List.mem_map]

def c7suiteA : Suite :=
  { name := "Standard Suite", code := "core", description := "",
    commands := [], classes := [],
    enumerations := [{ name := "save options", code := "savo", values := [] }] }

def c7suiteB : Suite :=
  { name := "Print Suite", code := "prnt", description := "",
    commands := [], classes := [],
    enumerations := [{ name := "printing error handling", code := "enum", values := [] },
                     { name := "save options", code := "savo", values := [] }] }

def c7doc : Document := { title := "T", suites := [c7suiteA, c7suiteB] }

theorem C7_enum_not_found_witness :
    get_enumeration c7doc "zzz"
      = "Enum " ++ sq ++ "zzz" ++ sq ++ " not found.\nAvailable: "
        ++ pyJoin ", " (all_enumeration_names c7doc) ∧
    all_enumeration_names c7doc = ["printing error handling", "save options"] :=
  ⟨(C7_enum_not_found c7doc "zzz" (by decide)).1, by decide⟩

/-! ## Claim C4 -/

theorem sub_pyJoin_of_mem_sub (sep : String) :
    ∀ (parts : List String) (s : String) (q : List Char), s ∈ parts →
      listSub q s.data = true → listSub q (pyJoin sep parts).data = true := by
  intro parts
  induction parts with
  | nil => intro s q h; cases h
  | cons a parts ih =>
    intro s q hs hq
    cases parts with
    | nil =>
      have : s = a := List.mem_singleton.mp hs
      subst this
      exact hq
    | cons b rest =>
      show listSub q (a ++ sep ++ pyJoin sep (b :: rest)).data = true
      rw [String.data_append, String.data_append, List.append_assoc]
      rcases List.mem_cons.mp hs with h | h
      · subst h
        exact listSub_mono_right q s.data _ hq
      · rw [← List.append_assoc]
        exact listSub_mono_left q _ _ (ih s q h hq)

theorem fmt_class_detail_marker {cls : Class} (sn : String) (h : cls.is_extension = true) :
    pyIn "(class extension)" (fmt_class_detail cls sn) = true := by
  show listSub _ (fmt_class_detail cls sn).data = true
  simp only [fmt_class_detail, h]
  refine sub_pyJoin_of_mem_sub "\n" _ "  (class extension)" _ ?_ (by decide)
  simp

/-- Claim C4: every class whose name matches the query case-insensitively, in
any suite, contributes its rendering to the `get_class` results — in
particular a base class and a class-extension sharing one name both appear —
and an extension's rendering carries the "(class extension)" marker. -/
theorem C4_class_multi_hit (doc : Document) (q : String) (suite : Suite) (cls : Class)
    (hs : suite ∈ doc.suites) (hc : cls ∈ suite.classes)
    (hname : pyLower cls.name = pyLower q) :
    fmt_class_detail cls suite.name ∈ get_class_results doc q ∧
    (cls.is_extension = true →
      pyIn "(class extension)" (fmt_class_detail cls suite.name) = true) := by
  refine ⟨?_, fun h => fmt_class_detail_marker suite.name h⟩
  unfold get_class_results
  rw [List.mem_flatMap]
  refine ⟨suite, hs, ?_⟩
  rw [List.mem_filterMap]
  exact ⟨cls, hc, by rw [if_pos hname]⟩

def c4base : Class :=
  { name := "document", code := "docu", description := "A document.",
    inherits := "", plural := "documents",
    properties := [], elements := [], responds_to := [], is_extension := false }

def c4ext : Class :=
  { name := "Document", code := "docu", description := "Mail additions.",
    inherits := "", plural := "",
    properties := [], elements := [], responds_to := [], is_extension := true }

def c4suiteA : Suite :=
  { name := "Standard Suite", code := "core", description := "",
    commands := [], classes := [c4base], enumerations := [] }

def c4suiteB : Suite :=
  { name := "Mail Suite", code := "mail", description := "",
    commands := [], classes := [c4ext], enumerations := [] }

def c4doc : Document := { title := "T", suites := [c4suiteA, c4suiteB] }

theorem C4_class_multi_hit_witness :
    fmt_class_detail c4base c4suiteA.name ∈ get_class_results c4doc "document" ∧
    fmt_class_detail c4ext c4suiteB.name ∈ get_class_results c4doc "document" ∧
    pyIn "(class extension)" (fmt_class_detail c4ext c4suiteB.name) = true :=
  ⟨(C4_class_multi_hit c4doc "document" c4suiteA c4base (by decide) (by decide) (by decide)).1,
   (C4_class_multi_hit c4doc "document" c4suiteB c4ext (by decide) (by decide) (by decide)).1,
   (C4_class_multi_hit c4doc "document" c4suiteB c4ext (by decide) (by decide) (by decide)).2 rfl⟩

/-! ## Claim C5 -/

/-- Claim C5: search is mutually exclusive per enumeration — when the query
is contained in the enumeration's own (lowercased) name, its contribution is
exactly one `ENUM` hit summarizing all values and the enumerator names are
not checked; otherwise each enumerator whose name contains the query yields
one `VAL` hit and no `ENUM` hit is emitted. -/
theorem C5_enum_search_exclusive (q sn : String) (e : Enumeration) :
    (pyIn q (pyLower e.name) = true → enum_hits q sn e = [enum_hit sn e]) ∧
    (pyIn q (pyLower e.name) = false →
      enum_hits q sn e
        = (e.values.filter (fun v => pyIn q (pyLower v.name))).map (val_hit sn e)) := by
  constructor
  · intro h
    unfold enum_hits
    rw [if_pos h]
  · intro h
    unfold enum_hits
    rw [if_neg (by simp [h])]
    exact filterMap_guard _ _ _

def c5enum : Enumeration :=
  { name := "save options", code := "savo",
    values := [{ name := "yes", code := "yes ", description := "Save the file." },
               { name := "no", code := "no  ", description := "" }] }

theorem C5_enum_search_exclusive_witness :
    pyIn (pyLower "save") (pyLower c5enum.name) = true ∧
    enum_hits (pyLower "save") "Standard Suite" c5enum = [enum_hit "Standard Suite" c5enum] ∧
    pyIn (pyLower "yes") (pyLower c5enum.name) = false ∧
    enum_hits (pyLower "yes") "Standard Suite" c5enum
      = [val_hit "Standard Suite" c5enum
          { name := "yes", code := "yes ", description := "Save the file." }] := by
  refine ⟨by decide, (C5_enum_search_exclusive _ _ _).1 (by decide), by decide, ?_⟩
  have h := (C5_enum_search_exclusive (pyLower "yes") "Standard Suite" c5enum).2 (by decide)
  rw [h]
  decide

/-! ## Claim C8 -/

/-- Claim C8: a class's search contribution is a `CLS` hit exactly when the
query is contained in the class's name or description, followed by one `PROP`
hit for each property whose own name or description contains the query —
property matching is independent of whether the class itself matched. -/
theorem C8_class_property_independent (q sn : String) (cls : Class) :
    class_hits q sn cls
      = (if (pyIn q (pyLower cls.name) || pyIn q (pyLower cls.description)) = true
          then [cls_hit sn cls] else [])
        ++ (cls.properties.filter
              (fun p => pyIn q (pyLower p.name) || pyIn q (pyLower p.description))).map
            (prop_hit sn cls) ∧
    (∀ p ∈ cls.properties,
      (pyIn q (pyLower p.name) || pyIn q (pyLower p.description)) = true →
      prop_hit sn cls p ∈ class_hits q sn cls) := by
  constructor
  · unfold class_hits
    exact congrArg _ (filterMap_guard _ _ _)
  · intro p hp hmatch
    unfold class_hits
    rw [List.mem_append]
    right
    rw [List.mem_filterMap]
    exact ⟨p, hp, by rw [if_pos hmatch]⟩

def c8prop : Property :=
  { name := "miniaturized", code := "pmnd", type := "boolean", access := "rw",
    description := "Is the window minimized?" }

def c8cls : Class :=
  { name := "window", code := "cwin", description := "A window.",
    inherits := "", plural := "windows",
    properties := [c8prop], elements := [], responds_to := [], is_extension := false }

theorem C8_class_property_independent_witness :
    (pyIn (pyLower "mini") (pyLower c8cls.name)
      || pyIn (pyLower "mini") (pyLower c8cls.description)) = false ∧
    prop_hit "Standard Suite" c8cls c8prop
      ∈ class_hits (pyLower "mini") "Standard Suite" c8cls :=
  ⟨by decide,
   (C8_class_property_independent (pyLower "mini") "Standard Suite" c8cls).2
     c8prop (by decide) (by decide)⟩

end SDEF
